import Mathlib

/-!
Verification of the hash-chained threat log in `blockchain_server.py`.

The development shallowly embeds the program's core: the JSON payload model
with Python's canonical serialization (`json.dumps(..., sort_keys=True)`),
SHA-256 over the UTF-8 bytes of that serialization, the `Block` record,
and the `Blockchain` operations (`add_block`, `load_chain`,
`_validate_and_load_blocks`, `verify_chain`, `_verify_block`, reset,
initialization).  Machine-independent data (timestamps, file contents) are
passed explicitly: the wall clock becomes a `now : String` argument and the
persisted file becomes a `FileState` value.
-/

set_option maxRecDepth 40000

/-! ## Python string order (code-point lexicographic, used by `sorted`) -/

/-- Lexicographic comparison of code-point lists, as Python compares `str`
values: shorter prefix first, otherwise first differing code point decides. -/
def charsLe : List Char → List Char → Bool
  | [], _ => true
  | _ :: _, [] => false
  | c :: cs, d :: ds =>
    if c.toNat < d.toNat then true
    else if d.toNat < c.toNat then false
    else charsLe cs ds

/-- Python's `<=` on strings: code-point lexicographic order. -/
def strLe (a b : String) : Bool := charsLe a.data b.data

/-! ## The JSON value model

`Json` models the structured payloads the server handles: JSON objects,
arrays, strings, integers, booleans and null (the repository's payloads
carry no floats, which are therefore not modelled). -/

inductive Json where
  | null
  | jbool (b : Bool)
  | num (n : Int)
  | str (s : String)
  | arr (elems : List Json)
  | obj (fields : List (String × Json))

/-! ## Python `json.dumps` textual encoding -/

/-- Decimal digits of a natural number, most significant first; the first
argument is recursion fuel (any value above the digit count works). -/
def natDigits : Nat → Nat → List Char
  | 0, _ => []
  | fuel + 1, n =>
    let d := Char.ofNat (48 + n % 10)
    if n < 10 then [d] else natDigits fuel (n / 10) ++ [d]

/-- Python's textual form of an integer, as produced by `json.dumps`. -/
def intRepr : Int → String
  | Int.ofNat n => ⟨natDigits (n + 1) n⟩
  | Int.negSucc n => ⟨'-' :: natDigits (n + 2) (n + 1)⟩

/-- Lowercase hexadecimal digit for a value below 16. -/
def hexDigit (n : Nat) : Char :=
  if n < 10 then Char.ofNat (48 + n) else Char.ofNat (87 + n)

/-- Four lowercase hex digits, as in Python's `\u%04x` escapes. -/
def hex4 (n : Nat) : List Char :=
  [hexDigit (n >>> 12 % 16), hexDigit (n >>> 8 % 16), hexDigit (n >>> 4 % 16), hexDigit (n % 16)]

/-- The `\uXXXX` escape of one code point (a surrogate pair beyond the BMP),
matching Python's `ensure_ascii=True` encoder. -/
def uEscape (n : Nat) : List Char :=
  if n < 65536 then '\\' :: 'u' :: hex4 n
  else
    let m := n - 65536
    ('\\' :: 'u' :: hex4 (55296 + (m >>> 10))) ++ ('\\' :: 'u' :: hex4 (56320 + (m &&& 1023)))

/-- Escaping of one character inside a JSON string literal, following
Python's `json` encoder with `ensure_ascii=True`: backslash, quote and the
five short escapes, `\uXXXX` for the other characters outside `0x20..0x7e`. -/
def escapeChar (c : Char) : List Char :=
  if c = '\\' then ['\\', '\\']
  else if c = '"' then ['\\', '"']
  else if c = '\x08' then ['\\', 'b']
  else if c = '\x0c' then ['\\', 'f']
  else if c = '\n' then ['\\', 'n']
  else if c = '\r' then ['\\', 'r']
  else if c = '\t' then ['\\', 't']
  else if c.toNat < 32 ∨ 126 < c.toNat then uEscape c.toNat
  else [c]

/-- A JSON string literal: quotes around the escaped characters. -/
def quoteStr (s : String) : String := ⟨'"' :: (s.data.map escapeChar).flatten ++ ['"']⟩

/-- Ordering of already-serialized object fields by key, the comparison
`sorted` performs in `json.dumps(..., sort_keys=True)` (dict keys are
distinct, so the value part never takes part in the comparison). -/
def fieldLe (a b : String × String) : Prop := strLe a.1 b.1 = true

instance : DecidableRel fieldLe := fun a b => inferInstanceAs (Decidable (strLe a.1 b.1 = true))

/-- Rendering of one object field with Python's default `": "` separator. -/
def renderField (p : String × String) : String := quoteStr p.1 ++ ": " ++ p.2

mutual

/-- Embeds `json.dumps(data, sort_keys=True)` with the default separators
`", "` and `": "`: the canonical textual encoding both hash commitments are
computed from (`blockchain_server.py`, `Block._calculate_data_hash` and
`Block.calculate_hash`). -/
def dumps : Json → String
  | .null => "null"
  | .jbool true => "true"
  | .jbool false => "false"
  | .num n => intRepr n
  | .str s => quoteStr s
  | .arr es => "[" ++ String.intercalate ", " (dumpsList es) ++ "]"
  | .obj fs =>
    "\x7b" ++
      String.intercalate ", " ((List.insertionSort fieldLe (dumpsFields fs)).map renderField) ++
      "\x7d"

/-- Serialization of the elements of a JSON array, in order. -/
def dumpsList : List Json → List String
  | [] => []
  | e :: es => dumps e :: dumpsList es

/-- Serialization of object fields (key paired with the serialized value),
in the object's own field order; `dumps` sorts the result by key. -/
def dumpsFields : List (String × Json) → List (String × String)
  | [] => []
  | (k, v) :: fs => (k, dumps v) :: dumpsFields fs

end

/-! ## SHA-256 over the UTF-8 bytes of a string (`hashlib.sha256`) -/

/-- Truncation to a 32-bit word. -/
def w32 (n : Nat) : Nat := n % 4294967296

/-- 32-bit right rotation. -/
def rotr (k n : Nat) : Nat := w32 ((n >>> k) ||| (n <<< (32 - k)))

/-- Message-schedule sigma-0. -/
def shaS0 (x : Nat) : Nat := (rotr 7 x) ^^^ (rotr 18 x) ^^^ (x >>> 3)

/-- Message-schedule sigma-1. -/
def shaS1 (x : Nat) : Nat := (rotr 17 x) ^^^ (rotr 19 x) ^^^ (x >>> 10)

/-- Compression Sigma-0. -/
def shaB0 (x : Nat) : Nat := (rotr 2 x) ^^^ (rotr 13 x) ^^^ (rotr 22 x)

/-- Compression Sigma-1. -/
def shaB1 (x : Nat) : Nat := (rotr 6 x) ^^^ (rotr 11 x) ^^^ (rotr 25 x)

/-- The 64 SHA-256 round constants of FIPS 180-4, written in decimal. -/
def shaK : List Nat :=
  [1116352408, 1899447441, 3049323471, 3921009573, 961987163, 1508970993,
   2453635748, 2870763221, 3624381080, 310598401, 607225278, 1426881987,
   1925078388, 2162078206, 2614888103, 3248222580, 3835390401, 4022224774,
   264347078, 604807628, 770255983, 1249150122, 1555081692, 1996064986,
   2554220882, 2821834349, 2952996808, 3210313671, 3336571891, 3584528711,
   113926993, 338241895, 666307205, 773529912, 1294757372, 1396182291,
   1695183700, 1986661051, 2177026350, 2456956037, 2730485921, 2820302411,
   3259730800, 3345764771, 3516065817, 3600352804, 4094571909, 275423344,
   430227734, 506948616, 659060556, 883997877, 958139571, 1322822218,
   1537002063, 1747873779, 1955562222, 2024104815, 2227730452, 2361852424,
   2428436474, 2756734187, 3204031479, 3329325298]

/-- The eight initial SHA-256 hash words of FIPS 180-4, in decimal. -/
def shaH0 : List Nat :=
  [1779033703, 3144134277, 1013904242, 2773480762,
   1359893119, 2600822924, 528734635, 1541459225]

/-- Message-schedule extension: given the sliding window of the previous 16
words, produces the next `fuel` schedule words. -/
def extendWords : Nat → List Nat → List Nat
  | 0, _ => []
  | fuel + 1, win =>
    let w := match win with
      | a :: b :: _ :: _ :: _ :: _ :: _ :: _ :: _ :: j :: _ :: _ :: _ :: _ :: o :: _ =>
          w32 (a + shaS0 b + j + shaS1 o)
      | _ => 0
    w :: extendWords fuel (win.drop 1 ++ [w])

/-- The 64-word message schedule of one block. -/
def msgSchedule (first16 : List Nat) : List Nat := first16 ++ extendWords 48 first16

/-- One SHA-256 compression round. -/
def roundStep (st : Nat × Nat × Nat × Nat × Nat × Nat × Nat × Nat) (kw : Nat × Nat) :
    Nat × Nat × Nat × Nat × Nat × Nat × Nat × Nat :=
  match st, kw with
  | (a, b, c, d, e, f, g, h), (k, w) =>
    let ch := (e &&& f) ^^^ ((4294967295 ^^^ e) &&& g)
    let maj := (a &&& b) ^^^ (a &&& c) ^^^ (b &&& c)
    let t1 := w32 (h + shaB1 e + ch + k + w)
    let t2 := w32 (shaB0 a + maj)
    (w32 (t1 + t2), a, b, c, w32 (d + t1), e, f, g)

/-- Compression of one 16-word block into the running 8-word state. -/
def compressBlock (hs : List Nat) (block16 : List Nat) : List Nat :=
  match hs with
  | [h0, h1, h2, h3, h4, h5, h6, h7] =>
    let ws := msgSchedule block16
    match (shaK.zip ws).foldl roundStep (h0, h1, h2, h3, h4, h5, h6, h7) with
    | (a, b, c, d, e, f, g, h) =>
      [w32 (h0 + a), w32 (h1 + b), w32 (h2 + c), w32 (h3 + d),
       w32 (h4 + e), w32 (h5 + f), w32 (h6 + g), w32 (h7 + h)]
  | _ => hs

/-- Big-endian packing of bytes into 32-bit words. -/
def toWords : List Nat → List Nat
  | a :: b :: c :: d :: rest => (a * 16777216 + b * 65536 + c * 256 + d) :: toWords rest
  | _ => []

/-- Grouping of words into 16-word blocks. -/
def toBlocks : List Nat → List (List Nat)
  | w0 :: w1 :: w2 :: w3 :: w4 :: w5 :: w6 :: w7 ::
    w8 :: w9 :: wa :: wb :: wc :: wd :: we :: wf :: rest =>
      [w0, w1, w2, w3, w4, w5, w6, w7, w8, w9, wa, wb, wc, wd, we, wf] :: toBlocks rest
  | _ => []

/-- The eight big-endian bytes of the 64-bit message bit length. -/
def lenBytes8 (n : Nat) : List Nat :=
  [n >>> 56 % 256, n >>> 48 % 256, n >>> 40 % 256, n >>> 32 % 256,
   n >>> 24 % 256, n >>> 16 % 256, n >>> 8 % 256, n % 256]

/-- SHA-256 padding: `0x80`, zeros to 56 mod 64, then the bit length. -/
def padBytes (msg : List Nat) : List Nat :=
  let len := msg.length
  let z := (64 - (len + 9) % 64) % 64
  msg ++ [128] ++ List.replicate z 0 ++ lenBytes8 (len * 8)

/-- The eight final SHA-256 state words of a byte message. -/
def sha256Words (msg : List Nat) : List Nat :=
  (toBlocks (toWords (padBytes msg))).foldl compressBlock shaH0

/-- Eight lowercase hex digits of one 32-bit word. -/
def wordHex (w : Nat) : List Char :=
  [hexDigit (w >>> 28 % 16), hexDigit (w >>> 24 % 16),
   hexDigit (w >>> 20 % 16), hexDigit (w >>> 16 % 16),
   hexDigit (w >>> 12 % 16), hexDigit (w >>> 8 % 16),
   hexDigit (w >>> 4 % 16), hexDigit (w % 16)]

/-- UTF-8 encoding of one code point (what `str.encode()` does per char). -/
def utf8EncodeChar (c : Char) : List Nat :=
  let n := c.toNat
  if n < 128 then [n]
  else if n < 2048 then [192 ||| (n >>> 6), 128 ||| (n &&& 63)]
  else if n < 65536 then
    [224 ||| (n >>> 12), 128 ||| ((n >>> 6) &&& 63), 128 ||| (n &&& 63)]
  else
    [240 ||| (n >>> 18), 128 ||| ((n >>> 12) &&& 63), 128 ||| ((n >>> 6) &&& 63), 128 ||| (n &&& 63)]

/-- The UTF-8 bytes of a string, as Python's `str.encode()` yields them. -/
def utf8Bytes (s : String) : List Nat := (s.data.map utf8EncodeChar).flatten

/-- Embeds `hashlib.sha256(s.encode()).hexdigest()`: the lowercase 64-char
hex digest of the UTF-8 bytes of `s`. -/
def sha256hex (s : String) : String := ⟨((sha256Words (utf8Bytes s)).map wordHex).flatten⟩

/-! ## The spec's canonical form (for the key-order-insensitivity claim)

The spec describes the hashing input as a "canonical form [that]
recursively sorts all map keys lexicographically".  `canonicalize` is that
recursive key-sorting, stated on the `Json` values themselves; two payloads
are "equal up to the ordering of keys in their maps (at every nesting
level)" exactly when their canonicalizations coincide. -/

/-- Ordering of raw object fields by key, for the recursive key sort. -/
def jfieldLe (a b : String × Json) : Prop := strLe a.1 b.1 = true

instance : DecidableRel jfieldLe := fun a b => inferInstanceAs (Decidable (strLe a.1 b.1 = true))

mutual

/-- Recursively sorts all object keys lexicographically, leaving everything
else unchanged: the spec's "canonical form" of a payload. -/
def canonicalize : Json → Json
  | .null => .null
  | .jbool b => .jbool b
  | .num n => .num n
  | .str s => .str s
  | .arr es => .arr (canonList es)
  | .obj fs => .obj (List.insertionSort jfieldLe (canonFields fs))

/-- Canonicalization of the elements of an array. -/
def canonList : List Json → List Json
  | [] => []
  | e :: es => canonicalize e :: canonList es

/-- Canonicalization of the values of object fields (keys unchanged). -/
def canonFields : List (String × Json) → List (String × Json)
  | [] => []
  | (k, v) :: fs => (k, canonicalize v) :: canonFields fs

end

/-! ## Blocks (`class Block` in `blockchain_server.py`) -/

/-- A block as held in memory: the five attributes set by `Block.__init__`.
`data` is the payload, `data_hash` its content commitment, `hash` the block
commitment over `(data_hash, previous_hash, timestamp)`. -/
structure Block where
  data : Json
  previous_hash : String
  timestamp : String
  data_hash : String
  hash : String

instance : Inhabited Block := ⟨⟨Json.null, "", "", "", ""⟩⟩

namespace Block

/-- Embeds `Block._calculate_data_hash`:
`hashlib.sha256(json.dumps(data, sort_keys=True).encode()).hexdigest()`. -/
def calculate_data_hash (data : Json) : String := sha256hex (dumps data)

/-- Embeds `Block.calculate_hash`: the digest of the canonical dump of the
three-field object `{"data_hash": .., "previous_hash": .., "timestamp": ..}`. -/
def calculate_hash (data_hash previous_hash timestamp : String) : String :=
  sha256hex (dumps (Json.obj
    [("data_hash", Json.str data_hash),
     ("previous_hash", Json.str previous_hash),
     ("timestamp", Json.str timestamp)]))

/-- Python's `x or y` for an optional string argument: `None` and the empty
string are falsy and select the default. -/
def pyOr (v : Option String) (dflt : String) : String :=
  match v with
  | none => dflt
  | some s => if s = "" then dflt else s

/-- Embeds `Block.__init__(data, previous_hash, timestamp=None,
data_hash=None, block_hash=None)`; `now` stands for the
`datetime.now(timezone.utc).strftime(..)` default. -/
def init (data : Json) (previous_hash : String)
    (timestamp data_hash block_hash : Option String) (now : String) : Block :=
  let ts := pyOr timestamp now
  let dh := pyOr data_hash (calculate_data_hash data)
  let h := pyOr block_hash (calculate_hash dh previous_hash ts)
  ⟨data, previous_hash, ts, dh, h⟩

/-- A block built with all optional arguments defaulted, as in
`Block(data, previous_hash)`. -/
def new (data : Json) (previous_hash : String) (now : String) : Block :=
  init data previous_hash none none none now

end Block

/-! ## The persisted document and the stored form of a block -/

/-- One entry of the persisted `"chain"` list.  A field is `none` when the
key is missing from the stored object (`KeyError` on access in Python). -/
structure StoredBlock where
  data : Option Json
  previous_hash : Option String
  timestamp : Option String
  data_hash : Option String
  hash : Option String

instance : Inhabited StoredBlock := ⟨⟨none, none, none, none, none⟩⟩

/-- Embeds `Block.to_dict`: the five fields under their stable names. -/
def Block.to_dict (b : Block) : StoredBlock :=
  ⟨some b.data, some b.previous_hash, some b.timestamp, some b.data_hash, some b.hash⟩

/-- The parsed top-level document `{"version": .., "chain": [..]}`; a
`none` field means the key is absent. -/
structure FileData where
  version : Option String
  chain : Option (List StoredBlock)

/-- The condition of the blockchain file as the loading code classifies it:
missing, raising `json.JSONDecodeError`, raising some other `Exception` on
read, parsing to a JSON list (the old format), or parsing to a document. -/
inductive FileState where
  | absent
  | unparseable
  | unreadable
  | oldFormatList
  | parsed (doc : FileData)

/-- `BLOCKCHAIN_VERSION` from `config.py`. -/
def BLOCKCHAIN_VERSION : String := "1.0"

namespace Blockchain

/-- Embeds `Blockchain.create_genesis_block`. -/
def create_genesis_block (now : String) : Block :=
  Block.new (Json.obj [("type", Json.str "genesis"),
                       ("message", Json.str "Zero-Day Sentinel Started")]) "0" now

/-- Embeds `Blockchain.add_block`: duplicate `data_hash` values are
rejected without mutation, otherwise a block linked to the current tail is
appended.  The returned flag is the method's return value; the source calls
`save_chain` exactly when it is `true`.  (On an empty chain Python's
`self.chain[-1]` raises; `getLast!` stands in for that access and is only
reached on the non-empty chains of reachable states.) -/
def add_block (chain : List Block) (data : Json) (now : String) : Bool × List Block :=
  let data_hash := Block.calculate_data_hash data
  if chain.any (fun b => b.data_hash == data_hash) then (false, chain)
  else (true, chain ++ [Block.new data (chain.getLast!).hash now])

/-- Embeds the loop of `Blockchain._validate_and_load_blocks`: `chain` is
the accumulator and `i` the running index of `enumerate(blocks_data)`.  A
missing key aborts the whole load (`None`); a stored `hash` that differs
from `Block.calculate_hash(b.data_hash, b.previous_hash, b.timestamp)` ends
the load with `chain[:i]`, or a fresh genesis when `i == 0`. -/
def validate_and_load_blocks (now : String) :
    List StoredBlock → List Block → Nat → Option (List Block)
  | [], chain, _ => some chain
  | sb :: rest, chain, i =>
    match sb.data, sb.previous_hash, sb.timestamp, sb.data_hash, sb.hash with
    | some d, some p, some t, some dh, some h =>
      let b := Block.init d p (some t) (some dh) (some h) now
      if Block.calculate_hash b.data_hash b.previous_hash b.timestamp ≠ h then
        some (if i > 0 then chain.take i else [create_genesis_block now])
      else validate_and_load_blocks now rest (chain ++ [b]) (i + 1)
    | _, _, _, _, _ => none

/-- Embeds `Blockchain.load_chain`: `None` for a missing file, the old list
format, a version mismatch, a missing `"chain"` key or any other reading
error; a fresh single-genesis chain for a `json.JSONDecodeError`; otherwise
the validated blocks. -/
def load_chain (fs : FileState) (now : String) : Option (List Block) :=
  match fs with
  | .absent => none
  | .unparseable => some [create_genesis_block now]
  | .unreadable => none
  | .oldFormatList => none
  | .parsed doc =>
    if doc.version.getD "0.0" ≠ BLOCKCHAIN_VERSION then none
    else
      match doc.chain with
      | none => none
      | some blocks => validate_and_load_blocks now blocks [] 0

/-- Embeds `Blockchain.__init__` after the optional reset: the loaded chain,
replaced by `[create_genesis_block()]` when it is `None` or empty.  The
second component records whether `save_chain()` was called (it is called
exactly when the falsy check triggers). -/
def init (fs : FileState) (now : String) : List Block × Bool :=
  match load_chain fs now with
  | none => ([create_genesis_block now], true)
  | some [] => ([create_genesis_block now], true)
  | some (b :: bs) => (b :: bs, false)

/-- Embeds `Blockchain.save_chain`'s written document: the version tag and
the `to_dict` forms of the blocks, in chain order. -/
def save_doc (chain : List Block) : FileData :=
  { version := some BLOCKCHAIN_VERSION, chain := some (chain.map Block.to_dict) }

/-- The file contents after `Blockchain.__init__` ran against a file in
state `fs`: rewritten exactly when the initializer saved. -/
def initStorage (fs : FileState) (now : String) : FileState :=
  let r := init fs now
  if r.2 then .parsed (save_doc r.1) else fs

/-- Embeds `Blockchain._verify_block` on the raw stored dictionaries, in the
source's access-and-check order; `none` is a raised `KeyError` (caught by
`verify_chain`'s `except`), `some b` the boolean result. -/
def verify_block (current_block previous_block : StoredBlock) : Option Bool :=
  match previous_block.data with
  | none => none
  | some pd =>
    let prev_data_hash := Block.calculate_data_hash pd
    match previous_block.data_hash with
    | none => none
    | some pdh =>
      if prev_data_hash ≠ pdh then some false
      else
        match previous_block.previous_hash, previous_block.timestamp with
        | none, _ => none
        | some _, none => none
        | some pph, some pts =>
          let prev_hash := Block.calculate_hash prev_data_hash pph pts
          match previous_block.hash with
          | none => none
          | some ph =>
            if prev_hash ≠ ph then some false
            else
              match current_block.previous_hash with
              | none => none
              | some cph =>
                if cph ≠ ph then some false
                else
                  match current_block.data with
                  | none => none
                  | some cd =>
                    let curr_data_hash := Block.calculate_data_hash cd
                    match current_block.data_hash with
                    | none => none
                    | some cdh =>
                      if curr_data_hash ≠ cdh then some false
                      else
                        match current_block.timestamp with
                        | none => none
                        | some cts =>
                          let curr_hash := Block.calculate_hash curr_data_hash cph cts
                          match current_block.hash with
                          | none => none
                          | some ch => some (curr_hash == ch)

/-- Outcome of `Blockchain.verify_chain`: `(True, "Blockchain is valid!")`,
`(False, f"Invalid block at index {i}")`, or the `(False, f"Error
verifying chain: ..")` branch reached through an exception. -/
inductive VerifyResult where
  | valid
  | invalid (index : Nat)
  | error
deriving DecidableEq

/-- The loop `for i in range(1, len(blockchain))` of `verify_chain`:
`prev` is `blockchain[i-1]`, the list holds `blockchain[i:]`. -/
def verifyFrom (prev : StoredBlock) : List StoredBlock → Nat → VerifyResult
  | [], _ => .valid
  | cur :: rest, i =>
    match verify_block cur prev with
    | none => .error
    | some false => .invalid i
    | some true => verifyFrom cur rest (i + 1)

/-- Embeds `Blockchain.verify_chain`: re-reads the file fresh; any raising
condition (missing or unparseable file, a list document, a missing
`"chain"` key, a `KeyError` inside `_verify_block`) lands in the `except`
branch; otherwise adjacent pairs are checked from index 1. -/
def verify_chain (fs : FileState) : VerifyResult :=
  match fs with
  | .parsed doc =>
    match doc.chain with
    | some [] => .valid
    | some (b0 :: rest) => verifyFrom b0 rest 1
    | none => .error
  | _ => .error

/-- Embeds the `/reset` handler `reset_blockchain`: the chain is replaced
by a single fresh genesis block (and then saved). -/
def reset (now : String) : List Block := [create_genesis_block now]

end Blockchain

/-! ## Specification-side validator (for comparison with the code)

Spec §4.3 step 3 prescribes, for each entry `i`: (a) recompute
`payload_hash` from the stored payload; (b) recompute `entry_hash` from the
recomputed payload hash, stored `previous_hash` and stored `timestamp`;
(c) for `i > 0` check `entries[i].previous_hash == entries[i-1].entry_hash`.
`specFirstTampered` returns the smallest failing index under exactly these
three checks.  It is written from the spec's words, to be compared with the
code's validator. -/

/-- The spec's step-3 check for one entry against its predecessor (none for
the first entry). -/
def specCheckFails (prev : Option Block) (b : Block) : Bool :=
  (Block.calculate_data_hash b.data != b.data_hash) ||
  (Block.calculate_hash (Block.calculate_data_hash b.data) b.previous_hash b.timestamp != b.hash) ||
  (match prev with
   | none => false
   | some pb => b.previous_hash != pb.hash)

/-- Walk of the spec's step-3 checks, tracking predecessor and index. -/
def specFirstTamperedAux : Option Block → Nat → List Block → Option Nat
  | _, _, [] => none
  | prev, i, b :: rest =>
    if specCheckFails prev b then some i else specFirstTamperedAux (some b) (i + 1) rest

/-- The smallest index failing the spec's step-3 checks, if any. -/
def specFirstTampered (entries : List Block) : Option Nat := specFirstTamperedAux none 0 entries

/-! ## Well-formedness predicates on blocks -/

/-- The block's stored fields survive a `to_dict`/reload round trip
unchanged (no field is falsy) and its stored `hash` matches the load-time
recomputation from the stored `data_hash`, `previous_hash`, `timestamp` —
the only condition `_validate_and_load_blocks` tests. -/
def Block.WellStored (b : Block) : Prop :=
  b.timestamp ≠ "" ∧ b.data_hash ≠ "" ∧ b.hash ≠ "" ∧
  Block.calculate_hash b.data_hash b.previous_hash b.timestamp = b.hash

/-- The two per-entry recomputations of `_verify_block` succeed: the stored
`data_hash` matches the payload and the stored `hash` matches the triple. -/
def Block.SelfConsistent (b : Block) : Prop :=
  Block.calculate_data_hash b.data = b.data_hash ∧
  Block.calculate_hash b.data_hash b.previous_hash b.timestamp = b.hash

/-! ## Reachable states of the in-memory chain -/

/-- States of `blockchain.chain` reachable after process start: an
initialization from any file condition, followed by `/threat` appends and
`/reset` resets (each with an arbitrary clock reading). -/
inductive Reachable : List Block → Prop
  | boot (fs : FileState) (now : String) : Reachable (Blockchain.init fs now).1
  | addStep (chain : List Block) (data : Json) (now : String) :
      Reachable chain → Reachable (Blockchain.add_block chain data now).2
  | resetStep (chain : List Block) (now : String) :
      Reachable chain → Reachable (Blockchain.reset now)

/-- The first entry, if any, carries the genesis sentinel `"0"`. -/
def headPrevZero (chain : List Block) : Prop :=
  ∀ b ∈ chain.head?, b.previous_hash = "0"

/-- Reachability as in `Reachable`, but the initial load is restricted to
file states whose loaded chain (when the load succeeds) already starts with
`previous_hash = "0"` — the restriction the code itself never checks. -/
inductive ReachableChecked : List Block → Prop
  | boot (fs : FileState) (now : String)
      (h : ∀ c, Blockchain.load_chain fs now = some c → headPrevZero c) :
      ReachableChecked (Blockchain.init fs now).1
  | addStep (chain : List Block) (data : Json) (now : String) :
      ReachableChecked chain → ReachableChecked (Blockchain.add_block chain data now).2
  | resetStep (chain : List Block) (now : String) :
      ReachableChecked chain → ReachableChecked (Blockchain.reset now)

/-! ## Concrete example data used by counterexamples and witnesses -/

/-- A fixed clock reading. -/
def T1 : String := "2024-01-01 00:00:00"

/-- A later clock reading. -/
def T2 : String := "2024-01-02 09:30:00"

/-- A threat payload as the `/threat` endpoint accepts them. -/
def pay0 : Json :=
  Json.obj [("type", Json.str "malware_detected"),
            ("details", Json.obj [("ip", Json.str "10.0.0.1")])]

/-- A second, different threat payload. -/
def pay1 : Json :=
  Json.obj [("type", Json.str "suspicious_login"),
            ("details", Json.obj [("ip", Json.str "10.0.0.2")])]

/-- `pay0` with its keys written in the opposite order at both levels. -/
def pay0R : Json :=
  Json.obj [("details", Json.obj [("ip", Json.str "10.0.0.1")]),
            ("type", Json.str "malware_detected")]

/-- A first chain entry built by the code itself. -/
def exb0 : Block := Block.new pay0 "0" T1

/-- An internally self-consistent entry whose `previous_hash` is `"0"`
instead of `exb0.hash`: a spliced predecessor link. -/
def exb1bad : Block := Block.new pay1 "0" T1

/-- An entry correctly linked to `exb0`. -/
def exb1good : Block := Block.new pay1 exb0.hash T1

/-- The genesis block at time `T1`. -/
def exg0 : Block := Blockchain.create_genesis_block T1

/-- The stored form of `exg0` with only its payload edited in place
(`payload_hash`, `previous_hash`, `timestamp`, `hash` untouched). -/
def exg0edited : StoredBlock :=
  { Block.to_dict exg0 with data := some (Json.str "tampered") }

/-- A garbage entry: every hash field fails recomputation. -/
def exbGarbage : Block := ⟨Json.str "d", "p", "t", "x", "h"⟩

/-- A self-consistent first entry whose `previous_hash` is not `"0"`. -/
def exbX : Block := Block.new pay0 "XYZ" T1

/-- A chain entry whose `data_hash` is the canonical digest of `pay0`
(its other fields arbitrary). -/
def exc5blk : Block := ⟨Json.null, "0", T1, Block.calculate_data_hash pay0, "h"⟩

/-- A tail block with a short fake `data_hash`, never equal to a digest. -/
def exc6blk : Block := ⟨Json.null, "0", T1, "x", "tailhash"⟩

/-- A nested payload with shuffled key order. -/
def pW1 : Json :=
  Json.obj [("b", Json.obj [("y", Json.str "2"), ("x", Json.str "1")]),
            ("a", Json.str "z")]

/-- The same payload as `pW1` with sorted keys at every level. -/
def pW2 : Json :=
  Json.obj [("a", Json.str "z"),
            ("b", Json.obj [("x", Json.str "1"), ("y", Json.str "2")])]

/-! ## Properties of the Python string order -/

theorem charsLe_total : ∀ xs ys : List Char, charsLe xs ys = true ∨ charsLe ys xs = true := by
  intro xs
  induction xs with
  | nil => intro ys; left; rfl
  | cons c cs ih =>
    intro ys
    cases ys with
    | nil => right; rfl
    | cons d ds =>
      by_cases h1 : c.toNat < d.toNat
      · left; simp [charsLe, h1]
      · by_cases h2 : d.toNat < c.toNat
        · right; simp [charsLe, h2]
        · rcases ih ds with h | h
          · left; simp [charsLe, h1, h2, h]
          · right; simp [charsLe, h1, h2, h]

theorem charsLe_trans : ∀ xs ys zs : List Char,
    charsLe xs ys = true → charsLe ys zs = true → charsLe xs zs = true := by
  intro xs
  induction xs with
  | nil => intro ys zs _ _; rfl
  | cons c cs ih =>
    intro ys zs hxy hyz
    cases ys with
    | nil => simp [charsLe] at hxy
    | cons d ds =>
      cases zs with
      | nil => simp [charsLe] at hyz
      | cons e es =>
        simp only [charsLe] at hxy hyz ⊢
        split_ifs at hxy hyz ⊢ with h1 h2 h3 h4 h5 h6 <;>
          first
            | rfl
            | omega
            | (exact ih ds es hxy hyz)

instance : IsTotal (String × String) fieldLe :=
  ⟨fun x y => charsLe_total x.1.data y.1.data⟩

instance : IsTrans (String × String) fieldLe :=
  ⟨fun _ _ _ hab hbc => charsLe_trans _ _ _ hab hbc⟩

/-! ## A SHA-256 test vector (sanity of the digest embedding) -/

theorem sha256_test_vector :
    sha256hex "abc" = "ba7816bf8f01cfea414140de5dae2223b00361a396177a9cb410ff61f20015ad" := by
  decide

/-! ## Helper lemmas: digest length, Python `or`, reload round trip -/

theorem compressBlock_length (hs blk : List Nat) (h : hs.length = 8) :
    (compressBlock hs blk).length = 8 := by
  rcases hs with _ | ⟨a, _ | ⟨b, _ | ⟨c, _ | ⟨d, _ | ⟨e, _ | ⟨f, _ | ⟨g, _ | ⟨k, _ | ⟨x, rest⟩⟩⟩⟩⟩⟩⟩⟩⟩ <;>
    simp_all [compressBlock]

theorem foldl_compressBlock_length (blocks : List (List Nat)) :
    ∀ hs : List Nat, hs.length = 8 → (blocks.foldl compressBlock hs).length = 8 := by
  induction blocks with
  | nil => intro hs h; simpa using h
  | cons blk blocks ih => intro hs h; exact ih _ (compressBlock_length hs blk h)

theorem sha256Words_length (m : List Nat) : (sha256Words m).length = 8 :=
  foldl_compressBlock_length _ _ rfl

theorem wordHex_length (w : Nat) : (wordHex w).length = 8 := rfl

theorem flatten_wordHex_length (ws : List Nat) :
    ((ws.map wordHex).flatten).length = 8 * ws.length := by
  induction ws with
  | nil => rfl
  | cons w ws ih => simp [ih, wordHex_length]; omega

theorem sha256hex_length (s : String) : (sha256hex s).length = 64 := by
  show (((sha256Words (utf8Bytes s)).map wordHex).flatten).length = 64
  rw [flatten_wordHex_length, sha256Words_length]

theorem sha256hex_ne (s t : String) (h : t.length ≠ 64) : sha256hex s ≠ t :=
  fun he => h (he ▸ sha256hex_length s)

theorem pyOr_some (s d : String) (h : s ≠ "") : Block.pyOr (some s) d = s := by
  simp [Block.pyOr, h]

theorem Block.init_stored (b : Block) (now : String)
    (h1 : b.timestamp ≠ "") (h2 : b.data_hash ≠ "") (h3 : b.hash ≠ "") :
    Block.init b.data b.previous_hash (some b.timestamp) (some b.data_hash) (some b.hash) now
      = b := by
  simp [Block.init, pyOr_some _ _ h1, pyOr_some _ _ h2, pyOr_some _ _ h3]

/-! ## Behavior of the load-path validator on stored chains -/

theorem validate_accepts (now : String) (bs : List Block) :
    ∀ (chain : List Block) (i : Nat),
    (∀ b ∈ bs, Block.WellStored b) →
    Blockchain.validate_and_load_blocks now (bs.map Block.to_dict) chain i
      = some (chain ++ bs) := by
  induction bs with
  | nil =>
    intro chain i _
    simp [Blockchain.validate_and_load_blocks]
  | cons b bs ih =>
    intro chain i hok
    obtain ⟨h1, h2, h3, h4⟩ := hok b (by simp)
    simp only [List.map_cons, Blockchain.validate_and_load_blocks, Block.to_dict,
      Block.init_stored b now h1 h2 h3]
    rw [if_neg (by simpa using h4)]
    rw [ih (chain ++ [b]) (i + 1) (fun x hx => hok x (by simp [hx]))]
    simp

theorem validate_truncates (now : String) (bs : List Block) :
    ∀ (chain : List Block) (i : Nat), i = chain.length →
    (∀ b ∈ bs, Block.WellStored b) →
    ∀ (d : Json) (p t dh h : String), t ≠ "" → dh ≠ "" →
    Block.calculate_hash dh p t ≠ h →
    ∀ (rest : List StoredBlock),
    Blockchain.validate_and_load_blocks now
        (bs.map Block.to_dict ++ ⟨some d, some p, some t, some dh, some h⟩ :: rest) chain i
      = some (if (chain ++ bs).isEmpty then [Blockchain.create_genesis_block now]
              else chain ++ bs) := by
  induction bs with
  | nil =>
    intro chain i hi _ d p t dh h ht hdh hbad rest
    simp only [List.map_nil, List.nil_append, Blockchain.validate_and_load_blocks]
    rw [if_pos (by simpa [Block.init, pyOr_some _ _ ht, pyOr_some _ _ hdh] using hbad)]
    cases chain with
    | nil => simp [hi]
    | cons c cs => simp [hi, List.take_length]
  | cons b bs ih =>
    intro chain i hi hok d p t dh h ht hdh hbad rest
    obtain ⟨h1, h2, h3, h4⟩ := hok b (by simp)
    simp only [List.map_cons, List.cons_append, Blockchain.validate_and_load_blocks,
      Block.to_dict, Block.init_stored b now h1 h2 h3]
    rw [if_neg (by simpa using h4)]
    have hrec := ih (chain ++ [b]) (i + 1) (by simp [hi]) (fun x hx => hok x (by simp [hx]))
        d p t dh h ht hdh hbad rest
    simpa using hrec

/-! ## Canonicalization and serialization agree on key order -/

theorem dumpsFields_eq_map (fs : List (String × Json)) :
    dumpsFields fs = fs.map (fun p => (p.1, dumps p.2)) := by
  induction fs with
  | nil => rfl
  | cons p fs ih => obtain ⟨k, v⟩ := p; simp [dumpsFields, ih]

theorem dumpsFields_insertionSort (fs : List (String × Json)) :
    dumpsFields (List.insertionSort jfieldLe fs)
      = List.insertionSort fieldLe (dumpsFields fs) := by
  rw [dumpsFields_eq_map, dumpsFields_eq_map]
  exact List.map_insertionSort jfieldLe fieldLe _ _ (fun a _ b _ => Iff.rfl)

mutual

theorem dumps_canonicalize : ∀ j : Json, dumps (canonicalize j) = dumps j
  | .null => rfl
  | .jbool true => rfl
  | .jbool false => rfl
  | .num _ => rfl
  | .str _ => rfl
  | .arr es => by
    simp only [canonicalize, dumps, dumpsList_canonList es]
  | .obj fs => by
    simp only [canonicalize, dumps]
    rw [dumpsFields_insertionSort, dumpsFields_canonFields fs,
      List.Sorted.insertionSort_eq (List.sorted_insertionSort fieldLe (dumpsFields fs))]

theorem dumpsList_canonList : ∀ es : List Json, dumpsList (canonList es) = dumpsList es
  | [] => rfl
  | e :: es => by
    simp only [canonList, dumpsList, dumps_canonicalize e, dumpsList_canonList es]

theorem dumpsFields_canonFields :
    ∀ fs : List (String × Json), dumpsFields (canonFields fs) = dumpsFields fs
  | [] => rfl
  | (k, v) :: fs => by
    simp only [canonFields, dumpsFields, dumps_canonicalize v, dumpsFields_canonFields fs]

end

/-! ## Behavior of the verify path -/

theorem verify_block_link_broken (cur prev : Block)
    (hc : Block.SelfConsistent prev) (hlink : cur.previous_hash ≠ prev.hash) :
    Blockchain.verify_block (Block.to_dict cur) (Block.to_dict prev) = some false := by
  obtain ⟨hd, hh⟩ := hc
  simp only [Blockchain.verify_block, Block.to_dict, hd, hh]
  rw [if_neg (by simp), if_neg (by simp), if_pos hlink]

theorem verifyFrom_invalid :
    ∀ (rest : List StoredBlock) (prev : StoredBlock) (i k : Nat),
    Blockchain.verifyFrom prev rest i = Blockchain.VerifyResult.invalid k →
    ∃ j, j < rest.length ∧ k = i + j ∧
      Blockchain.verify_block (rest.getD j default) ((prev :: rest).getD j default) = some false ∧
      ∀ m, m < j →
        Blockchain.verify_block (rest.getD m default) ((prev :: rest).getD m default)
          = some true := by
  intro rest
  induction rest with
  | nil => intro prev i k h; simp [Blockchain.verifyFrom] at h
  | cons cur rest ih =>
    intro prev i k h
    rw [Blockchain.verifyFrom] at h
    rcases hvb : Blockchain.verify_block cur prev with _ | b
    · rw [hvb] at h; cases h
    · rw [hvb] at h
      cases b with
      | false =>
        refine ⟨0, by simp, by cases h; omega, by simpa using hvb, fun m hm => by omega⟩
      | true =>
        obtain ⟨j, hj, hk, hf, hall⟩ := ih cur (i + 1) k h
        refine ⟨j + 1, by simpa using hj, by omega, by simpa using hf, ?_⟩
        intro m hm
        cases m with
        | zero => simpa using hvb
        | succ m => simpa using hall m (by omega)

/-! ## State-machine helpers -/

theorem init_ne_nil (fs : FileState) (now : String) : (Blockchain.init fs now).1 ≠ [] := by
  simp only [Blockchain.init]
  rcases Blockchain.load_chain fs now with _ | (_ | ⟨b, bs⟩) <;> simp

theorem add_block_ne_nil (chain : List Block) (data : Json) (now : String) (h : chain ≠ []) :
    (Blockchain.add_block chain data now).2 ≠ [] := by
  simp only [Blockchain.add_block]
  split
  · simpa using h
  · simp

theorem getLast_bang_eq (l : List Block) (h : l ≠ []) : l.getLast! = l.getLast h :=
  List.getLast!_of_getLast? (List.getLast?_eq_getLast l h)

theorem init_headPrevZero (fs : FileState) (now : String)
    (hld : ∀ c, Blockchain.load_chain fs now = some c → headPrevZero c) :
    headPrevZero (Blockchain.init fs now).1 := by
  simp only [Blockchain.init]
  rcases hc : Blockchain.load_chain fs now with _ | (_ | ⟨b, bs⟩)
  · intro x hx
    simp at hx
    simp [← hx]
    rfl
  · intro x hx
    simp at hx
    simp [← hx]
    rfl
  · exact fun x hx => hld (b :: bs) hc x hx

theorem add_block_headPrevZero (chain : List Block) (data : Json) (now : String)
    (hne : chain ≠ []) (hz : headPrevZero chain) :
    headPrevZero (Blockchain.add_block chain data now).2 := by
  simp only [Blockchain.add_block]
  split
  · simpa using hz
  · cases chain with
    | nil => exact absurd rfl hne
    | cons c cs =>
      intro x hx
      simp at hx
      exact hx ▸ hz c (by simp)

theorem reset_headPrevZero (now : String) : headPrevZero (Blockchain.reset now) := by
  intro x hx
  simp [Blockchain.reset] at hx
  simp [← hx]
  rfl

/-! ## C1: the predecessor-link check -/

/-- C1, counterexample.  A stored two-entry document whose entries are each
internally self-consistent (payload hash and entry hash both recompute
correctly) but whose second entry points at `"0"` instead of the first
entry's hash is accepted in full by the load path — it is not treated as
tampered at index 1, contradicting the claim that load performs the
`entries[i].previous_hash == entries[i-1].entry_hash` check. -/
theorem C1_counterexample :
    (Blockchain.load_chain
        (FileState.parsed ⟨some "1.0", some [Block.to_dict exb0, Block.to_dict exb1bad]⟩)
        T2).map List.length = some 2 ∧
    Block.calculate_data_hash exb0.data = exb0.data_hash ∧
    Block.calculate_hash exb0.data_hash exb0.previous_hash exb0.timestamp = exb0.hash ∧
    Block.calculate_data_hash exb1bad.data = exb1bad.data_hash ∧
    Block.calculate_hash exb1bad.data_hash exb1bad.previous_hash exb1bad.timestamp
      = exb1bad.hash ∧
    exb1bad.previous_hash ≠ exb0.hash :=
  ⟨by decide, rfl, rfl, rfl, rfl, by decide⟩

/-- C1, amended.  Only the verify path performs the predecessor-link check:
`_verify_block` returns `False` whenever the current entry's
`previous_hash` differs from the previous entry's `hash` (given the
previous entry itself recomputes cleanly), whereas the load path accepts
any sequence of structurally complete entries whose stored `hash` equals
the recomputation from the stored `data_hash`, `previous_hash` and
`timestamp` — with no predecessor-link check at all. -/
theorem C1_amended_thm :
    (∀ (now : String) (bs : List Block) (chain : List Block) (i : Nat),
        (∀ b ∈ bs, Block.WellStored b) →
        Blockchain.validate_and_load_blocks now (bs.map Block.to_dict) chain i
          = some (chain ++ bs)) ∧
    (∀ cur prev : Block, Block.SelfConsistent prev → cur.previous_hash ≠ prev.hash →
        Blockchain.verify_block (Block.to_dict cur) (Block.to_dict prev) = some false) :=
  ⟨fun now bs chain i hok => validate_accepts now bs chain i hok,
   fun cur prev hc hl => verify_block_link_broken cur prev hc hl⟩

/-- C1, witness for the amended theorem: the broken-link pair `exb0`,
`exb1bad` is loaded in full by the load path and rejected by the verify
path's block check. -/
theorem C1_amended_witness :
    Blockchain.validate_and_load_blocks T2 ([exb0, exb1bad].map Block.to_dict) [] 0
      = some ([] ++ [exb0, exb1bad]) ∧
    Blockchain.verify_block (Block.to_dict exb1bad) (Block.to_dict exb0) = some false := by
  constructor
  · refine C1_amended_thm.1 T2 [exb0, exb1bad] [] 0 ?_
    intro b hb
    simp at hb
    rcases hb with rfl | rfl <;> exact ⟨by decide, by decide, by decide, rfl⟩
  · exact C1_amended_thm.2 exb1bad exb0 ⟨rfl, rfl⟩ (by decide)

/-! ## C2: which in-place edits the load path detects -/

/-- C2, counterexample.  Editing only the payload of the persisted genesis
entry (index 0), leaving the stored `data_hash` untouched, is not detected
on reload: the claim demands a fresh single genesis entry, but the load
path returns the edited entry itself — its payload is the tampered one,
which differs from the genesis payload; the stored `data_hash` does
disagree with the recomputation from the edited payload, so the spec's
check would have caught it. -/
theorem C2_counterexample :
    (Blockchain.load_chain (FileState.parsed ⟨some "1.0", some [exg0edited]⟩) T2).map
        (List.map fun b => dumps b.data) = some [dumps (Json.str "tampered")] ∧
    Block.calculate_data_hash (Json.str "tampered") ≠ exg0.data_hash ∧
    dumps (Json.str "tampered") ≠ dumps (Blockchain.create_genesis_block T2).data :=
  ⟨by decide, by decide, by decide⟩

/-- C2, amended.  Reloading truncates at the first index whose stored
`hash` disagrees with `Block.calculate_hash(stored data_hash, stored
previous_hash, stored timestamp)` — the load path trusts the stored
`payload_hash` and never recomputes it from the payload.  A document whose
first `i` entries pass that stored-hash check and whose entry at index `i`
fails it reloads to exactly those `i` entries (a fresh genesis when
`i = 0`); edits to a payload alone are invisible to this check. -/
theorem C2_amended_thm (now : String) (bs : List Block)
    (hok : ∀ b ∈ bs, Block.WellStored b)
    (d : Json) (p t dh h : String) (ht : t ≠ "") (hdh : dh ≠ "")
    (hbad : Block.calculate_hash dh p t ≠ h) (rest : List StoredBlock) :
    Blockchain.validate_and_load_blocks now
        (bs.map Block.to_dict ++ ⟨some d, some p, some t, some dh, some h⟩ :: rest) [] 0
      = some (if bs.isEmpty then [Blockchain.create_genesis_block now] else bs) := by
  simpa using validate_truncates now bs [] 0 rfl hok d p t dh h ht hdh hbad rest

/-- C2, witness for the amended theorem: one good entry followed by an
entry whose stored hash fails recomputation reloads to just the good
entry. -/
theorem C2_amended_witness :
    Blockchain.validate_and_load_blocks T2
        ([exb0].map Block.to_dict ++ ⟨some Json.null, some "q", some "t", some "x", some "h"⟩ :: [])
        [] 0
      = some (if ([exb0] : List Block).isEmpty then [Blockchain.create_genesis_block T2]
              else [exb0]) := by
  refine C2_amended_thm T2 [exb0] ?_ Json.null "q" "t" "x" "h" (by decide) (by decide)
    (by decide) []
  intro b hb
  simp at hb
  subst hb
  exact ⟨by decide, by decide, by decide, rfl⟩

/-! ## C3: which index verify reports -/

/-- C3, counterexample.  A stored single-entry document whose entry fails
every step-3 check (smallest failing index 0 under the spec's validator)
is reported as valid by `verify_chain`, because the loop starts at index 1
and never examines a lone entry — contradicting the claim that verify
returns invalid with the smallest failing index starting from 0. -/
theorem C3_counterexample :
    specFirstTampered [exbGarbage] = some 0 ∧
    Blockchain.verify_chain (FileState.parsed ⟨some "1.0", some [Block.to_dict exbGarbage]⟩)
      = Blockchain.VerifyResult.valid :=
  ⟨by decide, by decide⟩

/-- C3, amended.  When `verify_chain` reports `invalid i`, then `i ≥ 1`,
`i` is within the stored chain, the adjacent-pair check
`_verify_block(chain[i], chain[i-1])` is the one that failed, and every
earlier pair (indices 1 through i-1) passed — so the reported index is the
smallest failing index of the pair checks, which start at index 1; a
failure confined to entry 0 surfaces at index 1 (when a pair exists) or
not at all (chains of length at most 1 are always valid). -/
theorem C3_amended_thm (v : Option String) (bc : List StoredBlock) (i : Nat)
    (h : Blockchain.verify_chain (FileState.parsed ⟨v, some bc⟩)
          = Blockchain.VerifyResult.invalid i) :
    1 ≤ i ∧ i < bc.length ∧
    Blockchain.verify_block (bc.getD i default) (bc.getD (i - 1) default) = some false ∧
    ∀ j, 1 ≤ j → j < i →
      Blockchain.verify_block (bc.getD j default) (bc.getD (j - 1) default) = some true := by
  cases bc with
  | nil => simp [Blockchain.verify_chain] at h
  | cons b0 rest =>
    simp only [Blockchain.verify_chain] at h
    obtain ⟨j, hj, hk, hf, hall⟩ := verifyFrom_invalid rest b0 1 i h
    subst hk
    refine ⟨by omega, by simp only [List.length_cons]; omega, ?_, ?_⟩
    · have e1 : 1 + j = j + 1 := by omega
      rw [e1]
      have e2 : j + 1 - 1 = j := by omega
      rw [e2, List.getD_cons_succ]
      exact hf
    · intro m h1 h2
      cases m with
      | zero => omega
      | succ n =>
        have e2 : n + 1 - 1 = n := by omega
        rw [e2, List.getD_cons_succ]
        exact hall n (by omega)

/-- C3, witness for the amended theorem: on a document whose first entry is
garbage and whose second is well-formed, verify reports index 1 and the
failing pair is indeed (entry 1, entry 0). -/
theorem C3_amended_witness :
    Blockchain.verify_block
        ([Block.to_dict exbGarbage, Block.to_dict exb1good].getD 1 default)
        ([Block.to_dict exbGarbage, Block.to_dict exb1good].getD 0 default) = some false := by
  have h := C3_amended_thm (some "1.0") [Block.to_dict exbGarbage, Block.to_dict exb1good] 1
    (by decide)
  simpa using h.2.2.1

/-! ## C4: initialization on unreadable or unparseable files -/

/-- C4, counterexample.  On an unparseable file (`json.JSONDecodeError`),
initialization builds the fresh genesis chain in memory but does not
persist it: the saved-flag is `false` and the stored file still holds its
corrupt contents, which are not a parsed document holding the genesis
entry — contradicting the claim that the genesis entry is persisted
immediately in this case. -/
theorem C4_counterexample :
    Blockchain.init FileState.unparseable T1
      = ([Blockchain.create_genesis_block T1], false) ∧
    Blockchain.initStorage FileState.unparseable T1 = FileState.unparseable ∧
    Blockchain.initStorage FileState.unparseable T1
      ≠ FileState.parsed (Blockchain.save_doc [Blockchain.create_genesis_block T1]) :=
  ⟨rfl, rfl, fun h => nomatch h⟩

/-- C4, amended.  An unreadable file (any non-decode `Exception` while
reading) and a format error (old list format) both make `load_chain`
return `None`, so initialization builds a single fresh genesis entry and
persists it immediately; an unparseable file (`json.JSONDecodeError`)
instead makes `load_chain` itself return the fresh genesis chain, so the
initializer's falsy check does not fire and nothing is persisted — the
corrupt file stays on disk until the next save. -/
theorem C4_amended_thm (now : String) :
    Blockchain.init FileState.unreadable now
      = ([Blockchain.create_genesis_block now], true) ∧
    Blockchain.initStorage FileState.unreadable now
      = FileState.parsed (Blockchain.save_doc [Blockchain.create_genesis_block now]) ∧
    Blockchain.init FileState.oldFormatList now
      = ([Blockchain.create_genesis_block now], true) ∧
    Blockchain.initStorage FileState.oldFormatList now
      = FileState.parsed (Blockchain.save_doc [Blockchain.create_genesis_block now]) ∧
    Blockchain.init FileState.unparseable now
      = ([Blockchain.create_genesis_block now], false) ∧
    Blockchain.initStorage FileState.unparseable now = FileState.unparseable :=
  ⟨rfl, rfl, rfl, rfl, rfl, rfl⟩

/-! ## C5: duplicate suppression -/

/-- C5.  Whenever some existing entry already carries the canonical
payload hash of the incoming payload, `add_block` returns `False` and the
chain value is returned unchanged (the source only calls `save_chain` in
the accepting branch, so nothing is persisted either); the hypothesis is
on the digest, so it covers payloads that differ textually but
canonicalize identically. -/
theorem C5_duplicate_rejected (chain : List Block) (data : Json) (now : String)
    (hdup : ∃ b ∈ chain, b.data_hash = Block.calculate_data_hash data) :
    Blockchain.add_block chain data now = (false, chain) := by
  obtain ⟨b, hb, he⟩ := hdup
  simp only [Blockchain.add_block]
  rw [if_pos (List.any_eq_true.mpr ⟨b, hb, by simpa using he⟩)]

/-- C5, witness: a chain entry whose `data_hash` is the digest of `pay0`
rejects the textually different but canonically identical `pay0R`. -/
theorem C5_witness :
    Blockchain.add_block [exc5blk] pay0R T1 = (false, [exc5blk]) :=
  C5_duplicate_rejected [exc5blk] pay0R T1 ⟨exc5blk, by simp, rfl⟩

/-! ## C6: accepting append -/

/-- C6.  On a non-empty chain, a payload whose canonical hash matches no
existing entry is accepted: the result flag is `True`, the new chain is
the old chain with exactly one block appended at the end (all previous
entries unchanged in place), and the new block's `previous_hash` is the
hash of the old tail. -/
theorem C6_append_accepts (chain : List Block) (data : Json) (now : String)
    (hne : chain ≠ [])
    (hnodup : ∀ b ∈ chain, b.data_hash ≠ Block.calculate_data_hash data) :
    Blockchain.add_block chain data now
      = (true, chain ++ [Block.new data ((chain.getLast hne).hash) now]) ∧
    (Block.new data ((chain.getLast hne).hash) now).previous_hash
      = (chain.getLast hne).hash := by
  constructor
  · have hno : ¬ (chain.any
        (fun b => b.data_hash == Block.calculate_data_hash data) = true) := by
      simp only [List.any_eq_true, not_exists, not_and]
      intro b hb
      simpa using hnodup b hb
    simp only [Blockchain.add_block]
    rw [if_neg hno, getLast_bang_eq chain hne]
  · rfl

/-- C6, witness: appending `pay0` to a one-entry chain whose entry has an
unrelated `data_hash`. -/
theorem C6_witness :
    Blockchain.add_block [exc6blk] pay0 T2
      = (true, [exc6blk, Block.new pay0 exc6blk.hash T2]) := by
  have h := (C6_append_accepts [exc6blk] pay0 T2 (by simp)
    (fun b hb => by simp at hb; subst hb; decide)).1
  simpa using h

/-! ## C7: key-order insensitivity and determinism of the payload digest -/

/-- C7.  Two payloads that are equal up to the ordering of the keys of
their maps at every nesting level — that is, whose recursive key sorts
coincide — serialize to byte-identical canonical text and therefore to
byte-identical payload digests; `calculate_data_hash` is a plain function
of the payload, so equal payloads trivially hash identically as well. -/
theorem C7_canonical_hash (p1 p2 : Json) (h : canonicalize p1 = canonicalize p2) :
    dumps p1 = dumps p2 ∧ Block.calculate_data_hash p1 = Block.calculate_data_hash p2 := by
  have hd : dumps p1 = dumps p2 := by
    rw [← dumps_canonicalize p1, ← dumps_canonicalize p2, h]
  exact ⟨hd, by simp only [Block.calculate_data_hash, hd]⟩

/-- C7, witness: a nested payload with shuffled key order at two levels
hashes identically to its sorted form. -/
theorem C7_witness :
    dumps pW1 = dumps pW2 ∧ Block.calculate_data_hash pW1 = Block.calculate_data_hash pW2 :=
  C7_canonical_hash pW1 pW2 rfl

/-! ## C8: the chain is never empty -/

/-- C8.  Every reachable in-memory chain — any initialization against any
file condition, followed by any sequence of appends and resets — is
non-empty: initialization substitutes a genesis block for an empty or
failed load, appends only grow or keep the chain, and reset installs a
one-element chain. -/
theorem C8_chain_never_empty (chain : List Block) (h : Reachable chain) : chain ≠ [] := by
  induction h with
  | boot fs now => exact init_ne_nil fs now
  | addStep chain data now _ ih => exact add_block_ne_nil chain data now ih
  | resetStep chain now _ _ => simp [Blockchain.reset]

/-- C8, witness: the state booted from a missing file is non-empty. -/
theorem C8_witness : (Blockchain.init FileState.absent T1).1 ≠ [] :=
  C8_chain_never_empty _ (Reachable.boot FileState.absent T1)

/-! ## C9: the first entry's sentinel -/

/-- C9, counterexample.  Loading a persisted document whose single entry
is internally consistent for the load-path check but carries
`previous_hash = "XYZ"` yields a reachable post-initialization state whose
first entry does not have `previous_hash = "0"`: the load path never
checks the first entry's `previous_hash`. -/
theorem C9_counterexample :
    ((Blockchain.init (FileState.parsed ⟨some "1.0", some [Block.to_dict exbX]⟩) T2).1.head?).map
        Block.previous_hash = some "XYZ" ∧ ("XYZ" : String) ≠ "0" :=
  ⟨by decide, by decide⟩

/-- C9, amended.  The first entry has `previous_hash = "0"` in every state
reachable when the initial load is restricted to documents whose accepted
chain already starts with the `"0"` sentinel (fresh-genesis boots
included): genesis creation and reset produce the sentinel and appends
leave the first entry in place.  The code itself never enforces the
restriction on loaded documents — see the counterexample. -/
theorem C9_amended_thm (chain : List Block) (h : ReachableChecked chain) :
    headPrevZero chain := by
  have aux : chain ≠ [] ∧ headPrevZero chain := by
    induction h with
    | boot fs now hld => exact ⟨init_ne_nil fs now, init_headPrevZero fs now hld⟩
    | addStep chain data now _ ih =>
      exact ⟨add_block_ne_nil chain data now ih.1,
        add_block_headPrevZero chain data now ih.1 ih.2⟩
    | resetStep chain now _ _ =>
      exact ⟨by simp [Blockchain.reset], reset_headPrevZero now⟩
  exact aux.2

/-- C9, witness for the amended theorem: booting from a missing file gives
a chain whose first entry carries the sentinel. -/
theorem C9_amended_witness : headPrevZero (Blockchain.init FileState.absent T2).1 :=
  C9_amended_thm _ (ReachableChecked.boot FileState.absent T2 (fun _ hc => nomatch hc))

/-! ## C10: short chains always verify -/

/-- C10.  For every parsed document with a `"chain"` list of length 0
or 1, `verify_chain` returns valid whatever the entries contain and
whatever the version tag says: the verification loop ranges over indices
from 1, so it has nothing to examine. -/
theorem C10_short_chain_valid (v : Option String) (bc : List StoredBlock)
    (h : bc.length ≤ 1) :
    Blockchain.verify_chain (FileState.parsed ⟨v, some bc⟩)
      = Blockchain.VerifyResult.valid := by
  rcases bc with _ | ⟨b, _ | ⟨c, rest⟩⟩
  · rfl
  · rfl
  · simp at h

/-- C10, witness: a single stored entry all of whose hash fields are
garbage, under a wrong version tag, still verifies as valid. -/
theorem C10_witness :
    Blockchain.verify_chain (FileState.parsed ⟨some "9.9", some [Block.to_dict exbGarbage]⟩)
      = Blockchain.VerifyResult.valid :=
  C10_short_chain_valid (some "9.9") [Block.to_dict exbGarbage] (by simp)
